import Mathlib

/-!
Verification development for the kixx repository.

The deferred-computation primitive Task (spec §3-§4) is embedded
denotationally: a forked Task is determined by its final settlement and by
the ordered list of traced calls its transformation functions and terminal
handlers make.  Side-effecting JavaScript functions are embedded as Lean
functions that return, alongside their result, the list of call events they
emit; a thrown exception is an explicit alternative in the return type.
The Maybe type, the middleware composer and the StackedError constructor
are embedded directly from their source files.
-/

namespace Kixx

variable {V : Type}

/-- A call event: the label of the JavaScript function object that was
invoked, paired with the argument it received. -/
abbrev Ev (V : Type) := Nat × V

/-- Modelled from the spec: the settlement result of a Task execution,
`Resolved(A)` or `Rejected(E)` (spec §3; the Task module
src/lib/atypes/task.js is absent from src, only its test file is present). -/
inductive SettleResult (V : Type) where
  | rejected (e : V)
  | resolved (v : V)

/-- Modelled from the spec: one call an executor makes on its
`(reject, resolve)` settlement callbacks (spec §3). -/
inductive SettleCall (V : Type) where
  | resolve (v : V)
  | reject (e : V)

/-- Modelled from the spec: the observable behaviour of one executor
invocation — the settlement calls it makes, in order, and the value it
throws at the end of its run, if any (spec §4.1). -/
structure Executor (V : Type) where
  calls : List (SettleCall V)
  thrown : Option V

/-- The tagged result a settlement call stands for. -/
def SettleCall.toResult : SettleCall V → SettleResult V
  | .resolve v => .resolved v
  | .reject e => .rejected e

/-- Modelled from the spec: the once-only flag of the Settlement Core.
Each resolve/reject call checks the flag; the first call sets it and is
delivered, every later call is a silent no-op (spec §4.1, §3 invariant). -/
def settleRun : List (SettleCall V) → Bool → List (SettleResult V)
  | [], _ => []
  | _ :: rest, true => settleRun rest true
  | c :: rest, false => c.toResult :: settleRun rest true

/-- Modelled from the spec: the deliveries the Settlement Core makes for one
executor invocation.  A value thrown by the executor is treated as a reject
call, but only if the executor has not already settled (spec §4.1). -/
def settleDeliveries (ex : Executor V) : List (SettleResult V) :=
  match settleRun ex.calls false, ex.thrown with
  | [], some e => [SettleResult.rejected e]
  | ds, _ => ds

/-- Modelled from the spec: a Task is observed through one fork: its final
settlement (none when it stays pending forever) and the trace of
transformation-function calls the fork performs (spec §2, §4.2). -/
structure Task (V : Type) where
  settlement : Option (SettleResult V)
  trace : List (Ev V)

/-- Modelled from the spec: `new Task(executor)` — the settlement is the
single delivery of the Settlement Core, if any (spec §4.1, §6). -/
def Task.exec (ex : Executor V) : Task V :=
  ⟨(settleDeliveries ex).head?, []⟩

/-- Modelled from the spec: `Task.of(value)`, pre-destined to resolve
(spec §4.4). -/
def Task.of (v : V) : Task V :=
  ⟨some (SettleResult.resolved v), []⟩

/-- Modelled from the spec: `Task.reject(value)`, pre-destined to reject
(spec §4.4). -/
def Task.reject (e : V) : Task V :=
  ⟨some (SettleResult.rejected e), []⟩

/-- Modelled from the spec: `map(fn)` — on resolution invoke `fn`; if `fn`
throws, the new Task rejects with the thrown value; on rejection `fn` is
never invoked and the rejection passes through unchanged (spec §4.2). -/
def Task.map (t : Task V) (f : V → List (Ev V) × Except V V) : Task V :=
  match t.settlement with
  | none => ⟨none, t.trace⟩
  | some (.rejected e) => ⟨some (.rejected e), t.trace⟩
  | some (.resolved v) =>
    match (f v).2 with
    | .ok b => ⟨some (.resolved b), t.trace ++ (f v).1⟩
    | .error e => ⟨some (.rejected e), t.trace ++ (f v).1⟩

/-- Modelled from the spec: `chain(fn)` — on resolution invoke `fn`, which
yields a Task whose settlement becomes the settlement of the composed Task;
if `fn` throws, the composed Task rejects with the thrown value; on
rejection `fn` is never invoked (spec §4.2). -/
def Task.chain (t : Task V) (f : V → List (Ev V) × Except V (Task V)) : Task V :=
  match t.settlement with
  | none => ⟨none, t.trace⟩
  | some (.rejected e) => ⟨some (.rejected e), t.trace⟩
  | some (.resolved v) =>
    match (f v).2 with
    | .ok t2 => ⟨t2.settlement, t.trace ++ (f v).1 ++ t2.trace⟩
    | .error e => ⟨some (.rejected e), t.trace ++ (f v).1⟩

/-- Modelled from the spec: `Task.either(sad, happy, task)` — whichever
branch `task` settles into, the corresponding function is invoked with the
settled value and its returned Task is flattened into the result
(spec §4.4). -/
def Task.either (sad happy : V → List (Ev V) × Task V) (t : Task V) : Task V :=
  match t.settlement with
  | none => ⟨none, t.trace⟩
  | some (.resolved v) => ⟨(happy v).2.settlement, t.trace ++ (happy v).1 ++ (happy v).2.trace⟩
  | some (.rejected e) => ⟨(sad e).2.settlement, t.trace ++ (sad e).1 ++ (sad e).2.trace⟩

/-- Modelled from the spec: the outcome of a call to `fork` — it returns
normally, never fires a terminal callback because the pipeline stays
pending, or lets an exception propagate synchronously out of itself
(spec §4.3 rule 2). -/
inductive ForkOutcome (V : Type) where
  | completed
  | pending
  | threw (e : V)

/-- Modelled from the spec: the behaviour of a terminal callback.  It is
given the number of times it has already been invoked during this fork (a
stateful JavaScript handler may behave differently on each call) and the
settled value; it emits trace events and optionally throws a value
(spec §3, §4.3). -/
abbrev Handler (V : Type) := Nat → V → List (Ev V) × Option V

/-- Modelled from the spec: terminal rejection handling of the Fork Engine.
`onRejected(err)` is called; if it throws `e2`, `onRejected(e2)` is called a
second time (one retry only, with the newly thrown value); if that second
call also throws, the exception propagates out of `fork` (spec §4.3 rule 2). -/
def rejectPhase (onRejected : Handler V) (pre : List (Ev V)) (e : V) :
    List (Ev V) × ForkOutcome V :=
  match (onRejected 0 e).2 with
  | none => (pre ++ (onRejected 0 e).1, ForkOutcome.completed)
  | some e2 =>
    match (onRejected 1 e2).2 with
    | none => (pre ++ (onRejected 0 e).1 ++ (onRejected 1 e2).1, ForkOutcome.completed)
    | some e3 => (pre ++ (onRejected 0 e).1 ++ (onRejected 1 e2).1, ForkOutcome.threw e3)

/-- Modelled from the spec: `fork(onRejected, onResolved)` — a resolution is
delivered to `onResolved`; if that call throws `e`, the engine proceeds
exactly as if the pipeline had settled `Rejected(e)`; a rejection goes to
the terminal rejection handling (spec §4.3 rules 1 and 2). -/
def Task.fork (t : Task V) (onRejected onResolved : Handler V) :
    List (Ev V) × ForkOutcome V :=
  match t.settlement with
  | none => (t.trace, ForkOutcome.pending)
  | some (.rejected e) => rejectPhase onRejected t.trace e
  | some (.resolved v) =>
    match (onResolved 0 v).2 with
    | none => (t.trace ++ (onResolved 0 v).1, ForkOutcome.completed)
    | some e => rejectPhase onRejected (t.trace ++ (onResolved 0 v).1) e

/-- Once the once-only flag is set, no further settlement call is ever
delivered. -/
theorem settleRun_settled (l : List (SettleCall V)) : settleRun l true = [] := by
  induction l with
  | nil => rfl
  | cons c rest ih => simpa [settleRun] using ih

/-- An executor that makes at least one settlement call delivers exactly the
first one, whatever comes later and whatever it throws. -/
theorem settleDeliveries_cons (c : SettleCall V) (rest : List (SettleCall V))
    (th : Option V) :
    settleDeliveries ⟨c :: rest, th⟩ = [c.toResult] := by
  have h : settleRun (c :: rest) false = [c.toResult] := by
    simp [settleRun, settleRun_settled]
  cases th <;> simp [settleDeliveries, h]

/-- The rejection phase only prepends its accumulated trace: its handler
calls and outcome do not depend on what happened before it. -/
theorem rejectPhase_pre (onRejected : Handler V) (pre : List (Ev V)) (e : V) :
    rejectPhase onRejected pre e =
      (pre ++ (rejectPhase onRejected [] e).1, (rejectPhase onRejected [] e).2) := by
  unfold rejectPhase
  rcases h1 : (onRejected 0 e).2 with _ | e2
  · simp [h1]
  · rcases h2 : (onRejected 1 e2).2 with _ | e3
    · simp [h1, h2]
    · simp [h1, h2]

/-- Claim C1: forking a Task rejected with ERR1 under a rejection handler
that throws ERR2 on its first invocation and ERR3 on its second calls that
handler exactly twice — first with ERR1, then with ERR2, the newly thrown
value — and the second thrown value ERR3 propagates synchronously out of
fork; the resolution handler (universally quantified here) is never called
and there is no third invocation. -/
theorem fork_capped_retry_then_throw (V : Type) (ERR1 ERR2 ERR3 : V) (rl : Nat)
    (onResolved : Handler V) :
    Task.fork (Task.reject ERR1)
        (fun k e => ([(rl, e)], some (if k = 0 then ERR2 else ERR3)))
        onResolved
      = ([(rl, ERR1), (rl, ERR2)], ForkOutcome.threw ERR3) := by
  rfl

/-- Claim C2: forking a Task resolved with v under a resolution handler that
throws ERR calls the rejection handler exactly once with ERR; moreover, for
an arbitrary rejection handler the whole fork behaves exactly as if the
pipeline had settled Rejected(ERR), up to the resolution handler's own trace
entry. -/
theorem fork_resolved_handler_crossover (V : Type) (v ERR : V) (rl hl : Nat)
    (onRejected : Handler V) (hres : Handler V) :
    Task.fork (Task.of v)
        (fun _ e => ([(rl, e)], none))
        (fun _ x => ([(hl, x)], some ERR))
      = ([(hl, v), (rl, ERR)], ForkOutcome.completed)
    ∧ Task.fork (Task.of v) onRejected (fun _ x => ([(hl, x)], some ERR))
      = ((hl, v) :: (Task.fork (Task.reject ERR) onRejected hres).1,
         (Task.fork (Task.reject ERR) onRejected hres).2) := by
  constructor
  · rfl
  · show rejectPhase onRejected ([] ++ [(hl, v)]) ERR = _
    rw [rejectPhase_pre]
    show _ = ((hl, v) :: (rejectPhase onRejected [] ERR).1,
              (rejectPhase onRejected [] ERR).2)
    simp

/-- The trace event a recording terminal callback emits for a settlement:
label rl for a rejection, label hl for a resolution. -/
def settleEv (rl hl : Nat) : SettleResult V → Ev V
  | .rejected e => (rl, e)
  | .resolved v => (hl, v)

/-- Claim C3: an executor that calls resolve and/or reject more than once,
in any order, delivers exactly one settlement — the first call's — and a
fork of it fires exactly one terminal callback, exactly once, with that
first value; every later call through the same executor invocation is a
silent no-op. -/
theorem settle_first_call_wins (V : Type) (c : SettleCall V)
    (rest : List (SettleCall V)) (th : Option V) (rl hl : Nat) :
    settleDeliveries ⟨c :: rest, th⟩ = [c.toResult]
    ∧ Task.fork (Task.exec ⟨c :: rest, th⟩)
        (fun _ e => ([(rl, e)], none)) (fun _ v => ([(hl, v)], none))
      = ([settleEv rl hl c.toResult], ForkOutcome.completed) := by
  refine ⟨settleDeliveries_cons c rest th, ?_⟩
  have h : Task.exec ⟨c :: rest, th⟩ = ⟨some c.toResult, []⟩ := by
    simp [Task.exec, settleDeliveries_cons]
  rw [h]
  cases c <;> rfl

/-- Claim C4: an executor that throws synchronously without having settled
produces a Task that rejects with the thrown value — the rejection handler
is called once with it and the (arbitrary) resolution handler never — while
an executor that settles before throwing keeps the earlier settlement and
the late throw is ignored. -/
theorem executor_throw_rejects_unless_settled (V : Type) (e : V) (rl : Nat)
    (onResolved : Handler V) (c : SettleCall V) (rest : List (SettleCall V)) :
    Task.fork (Task.exec ⟨[], some e⟩)
        (fun _ x => ([(rl, x)], none)) onResolved
      = ([(rl, e)], ForkOutcome.completed)
    ∧ Task.exec ⟨c :: rest, some e⟩ = ⟨some c.toResult, []⟩ := by
  constructor
  · rfl
  · simp [Task.exec, settleDeliveries_cons]

/-- Claim C5: in a map/chain pipeline whose second chain step throws ERR,
the steps before the throwing one each run exactly once with the resolved
value R, no transformation function after the throwing step (f3, f4, both
arbitrary) is ever invoked, and the terminal rejection callback receives
exactly ERR. -/
theorem pipeline_short_circuit (V : Type) (R ERR : V)
    (f3 : V → List (Ev V) × Except V (Task V))
    (f4 : V → List (Ev V) × Except V V) (rl hl : Nat) :
    ((((Task.of R).chain (fun x => ([(1, x)], Except.ok (Task.of x)))).chain
        (fun x => ([(2, x)], (Except.error ERR : Except V (Task V))))).chain
        f3).map f4
      = ⟨some (SettleResult.rejected ERR), [(1, R), (2, R)]⟩
    ∧ Task.fork
        (((((Task.of R).chain (fun x => ([(1, x)], Except.ok (Task.of x)))).chain
            (fun x => ([(2, x)], (Except.error ERR : Except V (Task V))))).chain
            f3).map f4)
        (fun _ e => ([(rl, e)], none)) (fun _ x => ([(hl, x)], none))
      = ([(1, R), (2, R), (rl, ERR)], ForkOutcome.completed) := by
  exact ⟨rfl, rfl⟩

/-- Claim C6: chain is associative — t.chain(f).chain(g) is the same Task
(same settlement branch and value, same trace of transformation-function
invocations) as t.chain(x => f(x).chain(g)); in particular, on a rejected t
neither f nor g is ever invoked in either form. -/
theorem chain_associativity (V : Type) (t : Task V)
    (f : V → List (Ev V) × Except V (Task V))
    (g : V → List (Ev V) × Except V (Task V)) (e : V) (tr : List (Ev V)) :
    (t.chain f).chain g
      = t.chain (fun x => ((f x).1, Except.map (fun u => Task.chain u g) (f x).2))
    ∧ (Task.mk (some (SettleResult.rejected e)) tr).chain f
      = ⟨some (SettleResult.rejected e), tr⟩ := by
  refine ⟨?_, rfl⟩
  obtain ⟨s, tr0⟩ := t
  match s with
  | none => rfl
  | some (.rejected e0) => rfl
  | some (.resolved v) =>
    rcases hf : (f v).2 with e1 | t2
    · simp [Task.chain, hf, Except.map]
    · obtain ⟨s2, tr2⟩ := t2
      match s2 with
      | none => simp [Task.chain, hf, Except.map]
      | some (.rejected e2) => simp [Task.chain, hf, Except.map]
      | some (.resolved w) =>
        rcases hg : (g w).2 with e3 | t3
        · simp [Task.chain, hf, hg, Except.map]
        · simp [Task.chain, hf, hg, Except.map]

/-- Claim C7: `Task.either(sad, happy, task)` invokes exactly the function
belonging to the branch the source task settles into — happy once with the
resolved value (sad never), or sad once with the rejected value (happy
never) — and the combinator's settlement equals the settlement of the Task
the invoked function returns, including branch flips.  The first two
conjuncts state this in general (the uninvoked function is universally
quantified and absent from the result); the last four run the combinator
through fork in the four concrete branch combinations, including both
flips. -/
theorem either_branch_dispatch (V : Type) (sad happy : V → List (Ev V) × Task V)
    (v e VAL1 VAL2 : V) (tr : List (Ev V)) :
    Task.either sad happy ⟨some (SettleResult.resolved v), tr⟩
      = ⟨(happy v).2.settlement, tr ++ (happy v).1 ++ (happy v).2.trace⟩
    ∧ Task.either sad happy ⟨some (SettleResult.rejected e), tr⟩
      = ⟨(sad e).2.settlement, tr ++ (sad e).1 ++ (sad e).2.trace⟩
    ∧ Task.fork
        (Task.either sad (fun x => ([(1, x)], Task.of VAL2)) (Task.of VAL1))
        (fun _ x => ([(4, x)], none)) (fun _ x => ([(3, x)], none))
      = ([(1, VAL1), (3, VAL2)], ForkOutcome.completed)
    ∧ Task.fork
        (Task.either sad (fun x => ([(1, x)], Task.reject VAL2)) (Task.of VAL1))
        (fun _ x => ([(4, x)], none)) (fun _ x => ([(3, x)], none))
      = ([(1, VAL1), (4, VAL2)], ForkOutcome.completed)
    ∧ Task.fork
        (Task.either (fun x => ([(2, x)], Task.of VAL2)) happy (Task.reject VAL1))
        (fun _ x => ([(4, x)], none)) (fun _ x => ([(3, x)], none))
      = ([(2, VAL1), (3, VAL2)], ForkOutcome.completed)
    ∧ Task.fork
        (Task.either (fun x => ([(2, x)], Task.reject VAL2)) happy (Task.reject VAL1))
        (fun _ x => ([(4, x)], none)) (fun _ x => ([(3, x)], none))
      = ([(2, VAL1), (4, VAL2)], ForkOutcome.completed) := by
  exact ⟨rfl, rfl, rfl, rfl, rfl, rfl⟩

/-- The Maybe optional-value type of src/unnamed/part_001: a Just carries a
value, a Nothing carries none. -/
inductive Maybe (V : Type) where
  | just (value : V)
  | nothing

/-- Maybe.bimap from src/unnamed/part_001.  On a Just, happy is applied to
the value and the result is wrapped in a new Just; sad is never invoked.
On a Nothing, sad is invoked with zero arguments, its return value is
discarded, and the same Nothing comes back.  Both branch functions emit
their own trace events; sad takes Unit since it receives no argument. -/
def Maybe.bimap (sad : Unit → List (Ev V) × V) (happy : V → List (Ev V) × V) :
    Maybe V → List (Ev V) × Maybe V
  | .just v => ((happy v).1, .just (happy v).2)
  | .nothing => ((sad ()).1, .nothing)

/-- Claim C8: bimap on Nothing invokes sad exactly once with zero arguments
(its single trace event appears exactly once), never invokes happy (happy
is arbitrary and absent from the result), discards sad's return value (r is
arbitrary), and returns Nothing unchanged — in contrast with Just.bimap,
where the happy function's result does appear in the output. -/
theorem nothing_bimap_calls_sad (V : Type) (sl hl : Nat) (u r : V)
    (happy : V → List (Ev V) × V) (k : V → V) (v : V) :
    Maybe.bimap (fun _ => ([(sl, u)], r)) happy Maybe.nothing
      = ([(sl, u)], Maybe.nothing)
    ∧ Maybe.bimap (fun _ => ([(sl, u)], r)) (fun x => ([(hl, x)], k x))
        (Maybe.just v)
      = ([(hl, v)], Maybe.just (k v)) := by
  exact ⟨rfl, rfl⟩

/-- One call a middleware function makes on the resolver/rejector callbacks
handed to it by composeMiddleware (src/lib/compose-middleware.js). -/
inductive MwCall (V : Type) where
  | resolve (val : V)
  | reject (err : V)

/-- The observable behaviour of one middleware function invocation: the
resolver/rejector calls it makes, in order, and the value it throws at the
end of its run, if any. -/
structure MwBehavior (V : Type) where
  calls : List (MwCall V)
  thrown : Option V

/-- An externally visible effect of one middlewareWrapper invocation:
either the next stage is invoked with a value, or the terminal callback is
invoked with an error and the args. -/
inductive MwEffect (V : Type) where
  | next (val : V)
  | callback (err : V) (args : V)

/-- The resolver/rejector discipline of middlewareWrapper
(src/lib/compose-middleware.js lines 16-28): each call checks the
isResolved flag; the first call sets it and fires (resolver invokes the
next stage, rejector invokes the terminal callback); later calls return
false and do nothing. -/
def mwProcess (args : V) : List (MwCall V) → Bool → List (MwEffect V)
  | [], _ => []
  | _ :: rest, true => mwProcess args rest true
  | .resolve v :: rest, false => MwEffect.next v :: mwProcess args rest true
  | .reject e :: rest, false => MwEffect.callback e args :: mwProcess args rest true

/-- middlewareWrapper from src/lib/compose-middleware.js: fn runs inside
try/catch with the guarded resolver and rejector; if fn throws, the catch
sets isResolved and invokes the terminal callback with the thrown error
unconditionally — it does not check whether the flag was already set. -/
def middlewareWrapper (args : V) (b : MwBehavior V) : List (MwEffect V) :=
  mwProcess args b.calls false ++
    (match b.thrown with
     | some e => [MwEffect.callback e args]
     | none => [])

/-- Claim C9: a middleware function that first calls its resolver (driving
the next stage) and then throws synchronously still reaches the terminal
callback with the thrown error — one execution drives both the next stage
and the error callback — whereas the isResolved guard does protect the
resolver and rejector paths: after a first resolver or rejector call, a
later rejector or resolver call is a no-op. -/
theorem middleware_throw_after_resolve (V : Type) (args val err e2 : V) :
    middlewareWrapper args ⟨[MwCall.resolve val], some err⟩
      = [MwEffect.next val, MwEffect.callback err args]
    ∧ middlewareWrapper args ⟨[MwCall.resolve val, MwCall.reject e2], none⟩
      = [MwEffect.next val]
    ∧ middlewareWrapper args ⟨[MwCall.reject e2, MwCall.resolve val], none⟩
      = [MwEffect.callback e2 args] := by
  exact ⟨rfl, rfl, rfl⟩

/-- An error-like object as seen by the StackedError constructor
(src/unnamed/part_000): its code property, if any, and a reference to the
array its errors property holds, when that property is array-valued. -/
structure ErrObj (C : Type) where
  code : Option C
  errorsRef : Option Nat

/-- A store of JavaScript arrays of error objects, addressed by handle, so
that in-place mutation and aliasing of a shared array are observable. -/
def Heap (C : Type) := Nat → List (ErrObj C)

/-- Replace the array behind one handle, leaving every other handle
untouched. -/
def Heap.set (hp : Heap C) (h : Nat) (xs : List (ErrObj C)) : Heap C :=
  fun k => if k = h then xs else hp k

/-- The err argument of new StackedError(message, err): absent (falsy), a
truthy non-array object, or itself an array (arrays carry no errors
property of their own). -/
inductive ErrArg (C : Type) where
  | absent
  | obj (o : ErrObj C)
  | arrRef (h : Nat)

/-- The errors value a StackedError instance exposes: a reference to an
already existing array, or a freshly built array. -/
inductive ErrorsVal (C : Type) where
  | ref (h : Nat)
  | newArr (xs : List (ErrObj C))

/-- The list of error objects an ErrorsVal denotes under a heap. -/
def errorsListOf (hp : Heap C) : ErrorsVal C → List (ErrObj C)
  | .ref h => hp h
  | .newArr xs => xs

/-- The code of the first element of an errors list, undefined when the
list is empty or its first element has no code — the source's
(errors[0] or empty-object).code. -/
def codeOfList : List (ErrObj C) → Option C
  | [] => none
  | e :: _ => e.code

/-- The StackedError constructor of src/unnamed/part_000: if err has an
array-valued errors property, err is pushed onto that very array and the
same array is exposed as the instance's errors; otherwise errors is err
itself when err is an array, a fresh one-element array when err is truthy,
and a fresh empty array when err is absent.  The instance's code is the
code of the first element of the final errors list.  Returns the heap after
construction, the exposed errors value, and the code. -/
def stackedError (hp : Heap C) : ErrArg C → Heap C × ErrorsVal C × Option C
  | .absent => (hp, ErrorsVal.newArr [], none)
  | .arrRef h => (hp, ErrorsVal.ref h, codeOfList (hp h))
  | .obj o =>
    match o.errorsRef with
    | some h =>
      (hp.set h (hp h ++ [o]), ErrorsVal.ref h, codeOfList (hp h ++ [o]))
    | none => (hp, ErrorsVal.newArr [o], o.code)

/-- Claim C10: when err has an array-valued errors property the constructor
pushes err onto that very array — the heap cell behind err's own errorsRef
handle now holds the old contents followed by err, all other handles are
untouched, and the exposed errors value is a reference to that same handle;
otherwise errors is err itself when err is an array, a one-element array
holding err when err is truthy, and the empty array when err is absent; and
in every case code is the code of the first element of the final errors
list, hence none whenever that list is empty. -/
theorem stacked_error_errors_and_code (C : Type) (hp : Heap C) (c : Option C)
    (h k : Nat) :
    stackedError hp (ErrArg.obj ⟨c, some h⟩)
      = (Heap.set hp h (hp h ++ [⟨c, some h⟩]), ErrorsVal.ref h,
         codeOfList (hp h ++ [ErrObj.mk c (some h)]))
    ∧ errorsListOf (stackedError hp (ErrArg.obj ⟨c, some h⟩)).1
        (ErrorsVal.ref h)
      = hp h ++ [ErrObj.mk c (some h)]
    ∧ (stackedError hp (ErrArg.obj ⟨c, some h⟩)).1 k
      = (if k = h then hp h ++ [ErrObj.mk c (some h)] else hp k)
    ∧ stackedError hp (ErrArg.arrRef h)
      = (hp, ErrorsVal.ref h, codeOfList (hp h))
    ∧ stackedError hp (ErrArg.obj ⟨c, none⟩)
      = (hp, ErrorsVal.newArr [ErrObj.mk c none], c)
    ∧ stackedError hp ErrArg.absent
      = (hp, ErrorsVal.newArr [], none)
    ∧ codeOfList ([] : List (ErrObj C)) = none := by
  refine ⟨rfl, ?_, ?_, rfl, rfl, rfl, rfl⟩
  · simp [stackedError, errorsListOf, Heap.set]
  · simp [stackedError, Heap.set]

end Kixx
